import Mathlib

/-!
Verification of the WebSocket framing engine of cutelyst
(`src/wsgi/protocolwebsocket.cpp`) against its natural-language
specification.  The engine is embedded shallowly: bytes are `Nat` values
below 256, Qt byte arrays are `List Nat`, the per-connection frame state
(the `websocket_*` fields of `Socket`) is the structure `WSState`, and
every upward notification or outbound write becomes an `Event` appended
to `WSState.events`.  Function names follow the source.
-/

namespace CutelystWS

/-- Modelled from the spec: the opcode constants of `Socket` (declared in
`socket.h`, which is outside the embedded sources).  They are the standard
RFC 6455 opcode values that the spec's validation rules refer to
(reserved ranges 3-7 and 0xB-0xF, Text/Binary/Continue data opcodes,
Close/Ping/Pong control opcodes). -/
def OpCodeContinue : Nat := 0x0

/-- Text data opcode (RFC 6455). -/
def OpCodeText : Nat := 0x1

/-- Binary data opcode (RFC 6455). -/
def OpCodeBinary : Nat := 0x2

/-- First reserved data opcode (RFC 6455). -/
def OpCodeReserved3 : Nat := 0x3

/-- Last reserved data opcode (RFC 6455). -/
def OpCodeReserved7 : Nat := 0x7

/-- Close control opcode (RFC 6455). -/
def OpCodeClose : Nat := 0x8

/-- Ping control opcode (RFC 6455). -/
def OpCodePing : Nat := 0x9

/-- Pong control opcode (RFC 6455). -/
def OpCodePong : Nat := 0xA

/-- First reserved control opcode (RFC 6455). -/
def OpCodeReservedB : Nat := 0xB

/-- Last reserved control opcode (RFC 6455). -/
def OpCodeReservedF : Nat := 0xF

/-- Modelled from the spec: the close-code constants of
`Cutelyst::Response` (declared outside the embedded sources).  They are
the standard RFC 6455 close codes named by the spec: normal closure,
going away, protocol error, unsupported data, the missing-status-code
placeholder, wrong datatype, policy violated, too much data, missing
extension and internal-error/bad-operation. -/
def CloseCodeNormal : Nat := 1000

/-- Going-away close code (RFC 6455). -/
def CloseCodeGoingAway : Nat := 1001

/-- Protocol-error close code (RFC 6455). -/
def CloseCodeProtocolError : Nat := 1002

/-- Unsupported-data close code (RFC 6455). -/
def CloseCodeDatatypeNotSupported : Nat := 1003

/-- Missing-status-code placeholder (RFC 6455, never sent on the wire). -/
def CloseCodeMissingStatusCode : Nat := 1005

/-- Wrong-datatype close code (RFC 6455). -/
def CloseCodeWrongDatatype : Nat := 1007

/-- Policy-violated close code (RFC 6455). -/
def CloseCodePolicyViolated : Nat := 1008

/-- Too-much-data close code (RFC 6455). -/
def CloseCodeTooMuchData : Nat := 1009

/-- Missing-extension close code (RFC 6455). -/
def CloseCodeMissingExtension : Nat := 1010

/-- Internal-error close code (RFC 6455). -/
def CloseCodeBadOperation : Nat := 1011

/-- Result of running the UTF-8 codec over a byte sequence: the decoded
scalar values, the number of invalid sequences encountered (each decoded
as U+FFFD), and the number of trailing bytes of an incomplete final
sequence.  Mirrors `QTextCodec::ConverterState`'s `invalidChars` and
`remainingChars` counters as used by the source. -/
structure Utf8Result where
  chars : List Nat
  invalidChars : Nat
  remainingChars : Nat
deriving DecidableEq

/-- Valid second-byte range for a 3-byte UTF-8 sequence with lead `b`. -/
def utf8Cont2Ok (b c : Nat) : Bool :=
  if b = 0xE0 then decide (0xA0 ≤ c ∧ c ≤ 0xBF)
  else if b = 0xED then decide (0x80 ≤ c ∧ c ≤ 0x9F)
  else decide (0x80 ≤ c ∧ c ≤ 0xBF)

/-- Valid second-byte range for a 4-byte UTF-8 sequence with lead `b`. -/
def utf8Cont3Ok (b c : Nat) : Bool :=
  if b = 0xF0 then decide (0x90 ≤ c ∧ c ≤ 0xBF)
  else if b = 0xF4 then decide (0x80 ≤ c ∧ c ≤ 0x8F)
  else decide (0x80 ≤ c ∧ c ≤ 0xBF)

/-- Modelled from the spec: the incremental UTF-8 validator standing in
for the Qt UTF-8 codec (`QTextCodec`), which is outside the embedded
sources.  Per the spec it distinguishes three outcomes: valid so far,
incomplete (a valid prefix of a multi-byte codepoint at the end of the
input, reported through `remainingChars`), and invalid (reported through
`invalidChars`, decoding U+FFFD for the offending byte and resuming at
the next byte). -/
def utf8Analyze : List Nat → Utf8Result
  | [] => ⟨[], 0, 0⟩
  | b :: rest =>
    if b < 0x80 then
      let r := utf8Analyze rest
      ⟨b :: r.chars, r.invalidChars, r.remainingChars⟩
    else if 0xC2 ≤ b ∧ b ≤ 0xDF then
      match rest with
      | [] => ⟨[], 0, 1⟩
      | c :: rest2 =>
        if 0x80 ≤ c ∧ c ≤ 0xBF then
          let r := utf8Analyze rest2
          ⟨((b - 0xC0) * 64 + (c - 0x80)) :: r.chars, r.invalidChars, r.remainingChars⟩
        else
          let r := utf8Analyze (c :: rest2)
          ⟨0xFFFD :: r.chars, r.invalidChars + 1, r.remainingChars⟩
    else if 0xE0 ≤ b ∧ b ≤ 0xEF then
      match rest with
      | [] => ⟨[], 0, 1⟩
      | c :: rest2 =>
        if utf8Cont2Ok b c then
          match rest2 with
          | [] => ⟨[], 0, 2⟩
          | d :: rest3 =>
            if 0x80 ≤ d ∧ d ≤ 0xBF then
              let r := utf8Analyze rest3
              ⟨((b - 0xE0) * 4096 + (c - 0x80) * 64 + (d - 0x80)) :: r.chars,
                r.invalidChars, r.remainingChars⟩
            else
              let r := utf8Analyze (d :: rest3)
              ⟨0xFFFD :: r.chars, r.invalidChars + 1, r.remainingChars⟩
        else
          let r := utf8Analyze (c :: rest2)
          ⟨0xFFFD :: r.chars, r.invalidChars + 1, r.remainingChars⟩
    else if 0xF0 ≤ b ∧ b ≤ 0xF4 then
      match rest with
      | [] => ⟨[], 0, 1⟩
      | c :: rest2 =>
        if utf8Cont3Ok b c then
          match rest2 with
          | [] => ⟨[], 0, 2⟩
          | d :: rest3 =>
            if 0x80 ≤ d ∧ d ≤ 0xBF then
              match rest3 with
              | [] => ⟨[], 0, 3⟩
              | e :: rest4 =>
                if 0x80 ≤ e ∧ e ≤ 0xBF then
                  let r := utf8Analyze rest4
                  ⟨((b - 0xF0) * 262144 + (c - 0x80) * 4096 + (d - 0x80) * 64 + (e - 0x80))
                      :: r.chars, r.invalidChars, r.remainingChars⟩
                else
                  let r := utf8Analyze (e :: rest4)
                  ⟨0xFFFD :: r.chars, r.invalidChars + 1, r.remainingChars⟩
            else
              let r := utf8Analyze (d :: rest3)
              ⟨0xFFFD :: r.chars, r.invalidChars + 1, r.remainingChars⟩
        else
          let r := utf8Analyze (c :: rest2)
          ⟨0xFFFD :: r.chars, r.invalidChars + 1, r.remainingChars⟩
    else
      let r := utf8Analyze rest
      ⟨0xFFFD :: r.chars, r.invalidChars + 1, r.remainingChars⟩

/-- UTF-8 encoding of one Unicode scalar value (the `toUtf8` direction of
the Qt codec, modelled from the spec). -/
def utf8EncodeChar (c : Nat) : List Nat :=
  if c < 0x80 then [c]
  else if c < 0x800 then [0xC0 + c / 64, 0x80 + c % 64]
  else if c < 0x10000 then [0xE0 + c / 4096, 0x80 + c / 64 % 64, 0x80 + c % 64]
  else [0xF0 + c / 262144, 0x80 + c / 4096 % 64, 0x80 + c / 64 % 64, 0x80 + c % 64]

/-- UTF-8 encoding of a string of Unicode scalar values. -/
def utf8Encode (cs : List Nat) : List Nat :=
  (cs.map utf8EncodeChar).flatten

/-- Parsing phase of the frame state machine (`Socket::WebSocketPhase*`):
awaiting the 2-byte header, the extended length field, the 4 mask bytes,
or payload bytes. -/
inductive WSPhase
  | Headers
  | Size
  | Mask
  | Payload
deriving DecidableEq

/-- Observable effect of the engine: an upward notification to the
session collaborator (`Request::webSocket*` calls) or an outbound write
to the transport (`io->write`). -/
inductive Event
  | textFrame (chars : List Nat) (finFlag : Bool)
  | textMessage (chars : List Nat)
  | binaryFrame (bytes : List Nat) (finFlag : Bool)
  | binaryMessage (bytes : List Nat)
  | pongReceived (bytes : List Nat)
  | closedNotify (code : Nat) (reason : List Nat)
  | ioWrite (bytes : List Nat)
deriving DecidableEq

/-- Per-connection frame state: the `websocket_*` fields that
`protocolwebsocket.cpp` keeps on `Socket`, plus the `closed` flag
(`connectionClose()` has been called) and the accumulated `events`. -/
structure WSState where
  phase : WSPhase
  need : Nat
  finnOpcode : Nat
  payloadSize : Nat
  mask : List Nat
  payload : List Nat
  message : List Nat
  startOfFrame : Nat
  continueOpcode : Nat
  closed : Bool
  events : List Event
deriving DecidableEq

/-- Effect of `sock->connectionClose()`: tear the connection down.  The
frame-state fields are left as they are; no further event is recorded. -/
def connectionClose (s : WSState) : WSState :=
  { s with closed := true }

/-- Unmasking loop of `websocket_parse_payload` (lines 403-405): byte `i`
of the buffer is XORed with mask byte `(ix + i) % 4`, where `ix` starts
at the number of payload bytes already unmasked for this frame. -/
def maskBytes (key : List Nat) : Nat → List Nat → List Nat
  | _, [] => []
  | ix, b :: bs => (b ^^^ key.getD (ix % 4) 0) :: maskBytes key (ix + 1) bs

/-- `ProtocolWebSocket::createWebsocketHeader`: frame header for an
unfragmented, unmasked server frame with the given opcode and payload
length.  The first byte is `0x80 + opcode` truncated to a byte. -/
def createWebsocketHeader (opcode len : Nat) : List Nat :=
  let b0 := (0x80 + opcode) % 256
  if len < 126 then
    [b0, len]
  else if len ≤ 0xffff then
    [b0, 126, (len >>> 8) &&& 0xff, len &&& 0xff]
  else
    [b0, 127,
     (len >>> 56) &&& 0xff, (len >>> 48) &&& 0xff, (len >>> 40) &&& 0xff,
     (len >>> 32) &&& 0xff, (len >>> 24) &&& 0xff, (len >>> 16) &&& 0xff,
     (len >>> 8) &&& 0xff, len &&& 0xff]

/-- `ProtocolWebSocket::createWebsocketCloseReply`: a full Close frame
whose payload is the 2 big-endian bytes of `closeCode` followed by the
UTF-8 encoding of `msg` truncated to its first 123 bytes
(`msg.toUtf8().left(123)`). -/
def createWebsocketCloseReply (msg : List Nat) (closeCode : Nat) : List Nat :=
  let data := (utf8Encode msg).take 123
  createWebsocketHeader OpCodeClose (data.length + 2) ++
    [(closeCode >>> 8) &&& 0xff, closeCode &&& 0xff] ++ data

/-- `ws_be16`: big-endian 16-bit read of the first two buffer bytes.
The source does this by type punning on a little-endian host; here the
resulting value is written out directly. -/
def ws_be16 (buf : List Nat) : Nat :=
  256 * buf.getD 0 0 + buf.getD 1 0

/-- `ws_be64`: big-endian 64-bit read of the first eight buffer bytes
(same punning note as `ws_be16`). -/
def ws_be64 (buf : List Nat) : Nat :=
  buf.getD 0 0 * 0x100000000000000 + buf.getD 1 0 * 0x1000000000000 +
  buf.getD 2 0 * 0x10000000000 + buf.getD 3 0 * 0x100000000 +
  buf.getD 4 0 * 0x1000000 + buf.getD 5 0 * 0x10000 +
  buf.getD 6 0 * 0x100 + buf.getD 7 0

/-- `ProtocolWebSocket::send_pong`: write a Pong header for `data` and
then `data` itself to the transport. -/
def send_pong (data : List Nat) (s : WSState) : WSState :=
  { s with events := s.events ++
      [Event.ioWrite (createWebsocketHeader OpCodePong data.length),
       Event.ioWrite data] }

/-- `ProtocolWebSocket::send_binary`: append the frame payload to the
message buffer, emit a per-frame callback, and on FIN emit the complete
message and clear the buffers. -/
def send_binary (singleFrame : Bool) (s : WSState) : WSState :=
  let s1 := { s with message := s.message ++ s.payload }
  let frame := s1.payload
  let finFlag := decide (s1.finnOpcode &&& 0x80 ≠ 0)
  let s2 := { s1 with events := s1.events ++ [Event.binaryFrame frame finFlag] }
  if s2.finnOpcode &&& 0x80 ≠ 0 then
    let s3 := { s2 with continueOpcode := 0 }
    let s4 :=
      if singleFrame = true ∨ s3.payload = s3.message then
        { s3 with events := s3.events ++ [Event.binaryMessage frame] }
      else
        { s3 with events := s3.events ++ [Event.binaryMessage s3.message] }
    { s4 with message := [], payload := [] }
  else s2

/-- `ProtocolWebSocket::send_text` (lines 174-220).  The frame's slice of
the message buffer (from `websocket_start_of_frame`) is decoded with a
fresh converter state; `failed` is invalid-or-incomplete.  On the
whole-message path the source's inner `failed` reads the outer per-frame
converter `state`, not `stateMsg` (line 207), and the
`payload == message` shortcut emits the frame's decoding without
re-checking `failed`; both are translated as written. -/
def send_text (singleFrame : Bool) (s : WSState) : Bool × WSState :=
  let msg_size := s.message.length
  let s1 := { s with message := s.message ++ s.payload }
  let payloadL :=
    if s1.startOfFrame ≠ msg_size then s1.message.drop s1.startOfFrame else s1.payload
  let st := utf8Analyze payloadL
  let failed := st.invalidChars ≠ 0 ∨ st.remainingChars ≠ 0
  let frame := st.chars
  let finFlag := decide (s1.finnOpcode &&& 0x80 ≠ 0)
  if singleFrame = true ∧ (failed ∨ (frame = [] ∧ payloadL ≠ [])) then
    (false, connectionClose s1)
  else
    let s2 :=
      if ¬failed then
        { s1 with startOfFrame := s1.message.length,
                  events := s1.events ++ [Event.textFrame frame finFlag] }
      else s1
    if s2.finnOpcode &&& 0x80 ≠ 0 then
      let s3 := { s2 with continueOpcode := 0 }
      if singleFrame = true ∨ s3.payload = s3.message then
        (true, { s3 with events := s3.events ++ [Event.textMessage frame],
                         message := [], payload := [] })
      else
        let stMsg := utf8Analyze s3.message
        let failedMsg := st.invalidChars ≠ 0 ∨ st.remainingChars ≠ 0
        if failedMsg then
          (false, connectionClose s3)
        else
          (true, { s3 with events := s3.events ++ [Event.textMessage stMsg.chars],
                           message := [], payload := [] })
    else (true, s2)

/-- Raw close code of `send_closed` (lines 255-259): the big-endian
16-bit value of the first two payload bytes when at least two are
present, the missing-status-code placeholder otherwise. -/
def closeRawCode (s : WSState) : Nat :=
  if 2 ≤ s.payload.length then ws_be16 s.payload else CloseCodeMissingStatusCode

/-- Converter state of the close-reason decode of `send_closed` (lines
257-261): the reason bytes are decoded only when at least two payload
bytes are present; otherwise the state stays fresh. -/
def closeRawState (s : WSState) : Utf8Result :=
  if 2 ≤ s.payload.length then utf8Analyze (s.payload.drop 2) else ⟨[], 0, 0⟩

/-- Raw close reason of `send_closed` (lines 256-261). -/
def closeRawReason (s : WSState) : List Nat :=
  if 2 ≤ s.payload.length then (closeRawState s).chars else []

/-- Close-code validation and rewriting of `send_closed` (lines
264-295): an invalid or incomplete reason forces protocol error with the
reason cleared; codes in 3000-4999 pass through; outside that range the
explicitly legal codes pass through, the missing-status placeholder
becomes normal closure for an empty payload and protocol error
otherwise, and any other value becomes protocol error with the reason
cleared. -/
def closeFinal (s : WSState) : Nat × List Nat :=
  let closeCode := closeRawCode s
  let st := closeRawState s
  let reason := closeRawReason s
  if st.invalidChars ≠ 0 ∨ st.remainingChars ≠ 0 then
    (CloseCodeProtocolError, [])
  else if closeCode < 3000 ∨ 4999 < closeCode then
    if closeCode = CloseCodeNormal ∨ closeCode = CloseCodeGoingAway ∨
       closeCode = CloseCodeProtocolError ∨ closeCode = CloseCodeDatatypeNotSupported ∨
       closeCode = CloseCodeWrongDatatype ∨ closeCode = CloseCodePolicyViolated ∨
       closeCode = CloseCodeTooMuchData ∨ closeCode = CloseCodeMissingExtension ∨
       closeCode = CloseCodeBadOperation then
      (closeCode, reason)
    else if closeCode = CloseCodeMissingStatusCode then
      (if s.payload = [] then CloseCodeNormal else CloseCodeProtocolError, reason)
    else
      (CloseCodeProtocolError, [])
  else (closeCode, reason)

/-- `ProtocolWebSocket::send_closed` (lines 253-301): decode the raw
close code and reason from the payload, notify the session with the
pre-rewrite values, validate and rewrite the code, write the close reply
and tear the connection down. -/
def send_closed (s : WSState) : WSState :=
  let s1 := { s with events := s.events ++
      [Event.closedNotify (closeRawCode s) (closeRawReason s)] }
  let s2 := { s1 with events := s1.events ++
      [Event.ioWrite (createWebsocketCloseReply (closeFinal s).2 (closeFinal s).1)] }
  connectionClose s2

/-- Dispatch switch of `websocket_parse_payload` (lines 419-456), run
when the current frame's payload is complete.  Returns `false` when the
connection was closed. -/
def wsDispatch (s : WSState) : Bool × WSState :=
  let opcode := s.finnOpcode &&& 0xf
  if opcode = OpCodeContinue then
    if s.continueOpcode = OpCodeText then
      send_text false s
    else if s.continueOpcode = OpCodeBinary then
      (true, send_binary false s)
    else
      (false, connectionClose s)
  else if opcode = OpCodeText then
    send_text (decide (s.finnOpcode &&& 0x80 ≠ 0)) s
  else if opcode = OpCodeBinary then
    (true, send_binary (decide (s.finnOpcode &&& 0x80 ≠ 0)) s)
  else if opcode = OpCodeClose then
    (false, send_closed s)
  else if opcode = OpCodePing then
    (true, send_pong (s.payload.take 125) s)
  else if opcode = OpCodePong then
    (true, { s with events := s.events ++ [Event.pongReceived s.payload] })
  else
    (true, s)

/-- `ProtocolWebSocket::websocket_parse_payload`: unmask the newly read
bytes (continuing the mask index from the bytes already buffered), append
them to the frame payload, and either wait for more data or reset to the
header phase and dispatch the completed frame. -/
def websocket_parse_payload (s : WSState) (buf : List Nat) : Bool × WSState :=
  let unmasked := maskBytes s.mask s.payload.length buf
  let s1 := { s with payload := s.payload ++ unmasked }
  if s1.payload.length < s1.payloadSize then
    (true, { s1 with need := s1.need - buf.length })
  else
    wsDispatch { s1 with need := 2, phase := WSPhase.Headers }

/-- `ProtocolWebSocket::websocket_parse_mask`: store the 4 mask bytes,
move to the payload phase needing the declared length, clear the payload
buffer, and for an empty payload run the payload step immediately (its
Boolean result is discarded, as in the source). -/
def websocket_parse_mask (s : WSState) (buf : List Nat) : WSState :=
  let s1 := { s with mask := buf.take 4, phase := WSPhase.Payload,
                     need := s.payloadSize, payload := [] }
  if s1.payloadSize = 0 then (websocket_parse_payload s1 []).2 else s1

/-- `ProtocolWebSocket::websocket_parse_size`: decode the 16- or 64-bit
big-endian extended length, close the connection (without writing a close
reply) when it exceeds the configured maximum, and otherwise move to the
mask phase.  The final branch is the source's unreachable "BUG" branch,
which also closes. -/
def websocket_parse_size (maxSize : Nat) (s : WSState) (buf : List Nat) : Bool × WSState :=
  if s.payloadSize = 126 ∨ s.payloadSize = 127 then
    let size := if s.payloadSize = 126 then ws_be16 buf else ws_be64 buf
    if maxSize < size then
      (false, connectionClose s)
    else
      (true, { s with payloadSize := size, need := 4, phase := WSPhase.Mask })
  else
    (false, connectionClose s)

/-- `ProtocolWebSocket::websocket_parse_header` (lines 303-356): record
the FIN/opcode byte and the 7-bit length field, validate the RFC rules,
and on success reset the message buffer for a fresh data frame, remember
a continuation opcode when FIN is clear, and move to the size or mask
phase.  On violation write a 1002 close reply and close. -/
def websocket_parse_header (s : WSState) (byte1 byte2 : Nat) : Bool × WSState :=
  let s0 := { s with finnOpcode := byte1, payloadSize := byte2 &&& 0x7f }
  let opcode := byte1 &&& 0xf
  if byte2 >>> 7 = 0 ∨
     ((opcode = OpCodePing ∨ opcode = OpCodeClose) ∧ 125 < s0.payloadSize) ∨
     byte1 &&& 0x70 ≠ 0 ∨
     (OpCodeReserved3 ≤ opcode ∧ opcode ≤ OpCodeReserved7) ∨
     (OpCodeReservedB ≤ opcode ∧ opcode ≤ OpCodeReservedF) ∨
     (byte1 &&& 0x80 = 0 ∧ opcode ≠ OpCodeText ∧ opcode ≠ OpCodeBinary ∧
       opcode ≠ OpCodeContinue) ∨
     (s0.continueOpcode ≠ 0 ∧ (opcode = OpCodeText ∨ opcode = OpCodeBinary)) then
    (false, connectionClose
      { s0 with events := s0.events ++
          [Event.ioWrite (createWebsocketCloseReply [] 1002)] })
  else
    let s1 : WSState :=
      if opcode = OpCodeText ∨ opcode = OpCodeBinary then
        let sa : WSState := { s0 with message := [], startOfFrame := 0 }
        if byte1 &&& 0x80 = 0 then { sa with continueOpcode := opcode } else sa
      else s0
    if s1.payloadSize = 126 then
      (true, { s1 with need := 2, phase := WSPhase.Size })
    else if s1.payloadSize = 127 then
      (true, { s1 with need := 8, phase := WSPhase.Size })
    else
      (true, { s1 with need := 4, phase := WSPhase.Mask })

/-- Stop condition of the `readyRead` loop (line 126): no byte
available, nothing needed, or fewer bytes than needed outside the
payload phase. -/
def wsStop (s : WSState) (avail : List Nat) : Prop :=
  avail.length = 0 ∨ s.need = 0 ∨
    (avail.length < s.need ∧ s.phase ≠ WSPhase.Payload)

instance (s : WSState) (avail : List Nat) : Decidable (wsStop s avail) := by
  unfold wsStop; infer_instance

/-- One iteration of the `readyRead` loop body (lines 131-159): read
`min need m` of the available bytes into the scratch buffer and hand
them to the handler of the current phase.  Returns (continue?, state,
unread bytes); the Boolean result of `websocket_parse_mask`'s inner
payload call is discarded as in the source. -/
def wsStep (m maxSize : Nat) (s : WSState) (avail : List Nat) : Bool × WSState × List Nat :=
  let len := min s.need (min m avail.length)
  let buf := avail.take len
  let rest := avail.drop len
  if s.phase = WSPhase.Headers then
    let r := websocket_parse_header s (buf.getD 0 0) (buf.getD 1 0)
    (r.1, r.2, rest)
  else if s.phase = WSPhase.Size then
    let r := websocket_parse_size maxSize s buf
    (r.1, r.2, rest)
  else if s.phase = WSPhase.Mask then
    (true, websocket_parse_mask s buf, rest)
  else
    let r := websocket_parse_payload s buf
    (r.1, r.2, rest)

/-- One run of `ProtocolWebSocket::readyRead`, fuelled.  `m` is the
scratch-buffer size `m_postBufferSize` (each `io->read` returns at most
`min need m` bytes of what is available), `maxSize` the configured
maximum message size.  The loop stops when `wsStop` holds; a parse step
that returns `false` ends the run.  The fuel only bounds the recursion;
`readyRead` supplies enough for every reachable iteration. -/
def wsRun (m maxSize : Nat) : Nat → WSState → List Nat → WSState × List Nat
  | 0, s, avail => (s, avail)
  | fuel + 1, s, avail =>
    if wsStop s avail then
      (s, avail)
    else
      let r := wsStep m maxSize s avail
      if r.1 then wsRun m maxSize fuel r.2.1 r.2.2 else (r.2.1, r.2.2)

/-- `ProtocolWebSocket::readyRead` on a given list of available bytes:
returns the final state and the bytes left unconsumed in the transport
buffer. -/
def readyRead (m maxSize : Nat) (s : WSState) (avail : List Nat) : WSState × List Nat :=
  wsRun m maxSize avail.length s avail

/-- Successive `readyRead` invocations: each chunk of newly arrived bytes
is processed together with the bytes the previous call left in the
transport buffer. -/
def feedChunks (m maxSize : Nat) : WSState → List Nat → List (List Nat) → WSState × List Nat
  | s, left, [] => (s, left)
  | s, left, c :: cs =>
    let r := readyRead m maxSize s (left ++ c)
    feedChunks m maxSize r.1 r.2 cs

/-- Fresh per-connection frame state: awaiting a 2-byte header, all
buffers empty, no continuation open (the reset values the parser itself
uses between frames). -/
def initWS : WSState :=
  { phase := WSPhase.Headers, need := 2, finnOpcode := 0, payloadSize := 0,
    mask := [], payload := [], message := [], startOfFrame := 0,
    continueOpcode := 0, closed := false, events := [] }

/-- Length-decoding pipeline of the decoder: the header phase's length
field extraction (`byte2 & 0x7f` and the 126/127 transitions of
`websocket_parse_header`) followed, when an extended length is present,
by `websocket_parse_size` over the following bytes. -/
def wsDeclaredLen (maxSize : Nat) (bytes : List Nat) : Option Nat :=
  let ps := bytes.getD 1 0 &&& 0x7f
  if ps = 126 ∨ ps = 127 then
    let st := { initWS with payloadSize := ps, phase := WSPhase.Size,
                            need := if ps = 126 then 2 else 8 }
    let r := websocket_parse_size maxSize st (bytes.drop 2)
    if r.1 then some r.2.payloadSize else none
  else
    some ps

/-- Spec-side formulation of the header rejection condition of claim C1,
written from the claim's words: mask bit of byte 2 clear; opcode Ping or
Close with 7-bit length over 125; any RSV bit of byte 1 set; opcode in a
reserved range; FIN clear with an opcode that is not Text, Binary or
Continue; or a continuation open while a new Text or Binary frame
starts. -/
def headerRejectSpec (contOpen : Prop) (b1 b2 : Nat) : Prop :=
  b2.testBit 7 = false ∨
  ((b1 % 16 = 9 ∨ b1 % 16 = 8) ∧ 125 < b2 % 128) ∨
  (b1.testBit 4 = true ∨ b1.testBit 5 = true ∨ b1.testBit 6 = true) ∨
  (3 ≤ b1 % 16 ∧ b1 % 16 ≤ 7) ∨
  (11 ≤ b1 % 16 ∧ b1 % 16 ≤ 15) ∨
  (b1.testBit 7 = false ∧ ¬(b1 % 16 = 1 ∨ b1 % 16 = 2 ∨ b1 % 16 = 0)) ∨
  (contOpen ∧ (b1 % 16 = 1 ∨ b1 % 16 = 2))

/-- Invariant of the frame state machine: `need` always matches the
current phase (2 for headers, 2 or 8 for the extended length, 4 for the
mask), and in the payload phase the buffered payload is strictly below
the declared length with `need` exactly the number of missing bytes. -/
def WSInv (s : WSState) : Prop :=
  (s.phase = WSPhase.Headers → s.need = 2) ∧
  (s.phase = WSPhase.Size → s.need = 2 ∨ s.need = 8) ∧
  (s.phase = WSPhase.Mask → s.need = 4) ∧
  (s.phase = WSPhase.Payload →
    s.payload.length < s.payloadSize ∧ s.need = s.payloadSize - s.payload.length)

/-- State after absorbing a strictly-partial payload read: the partial
branch of `websocket_parse_payload`. -/
def absorbState (s : WSState) (buf : List Nat) : WSState :=
  { s with payload := s.payload ++ maskBytes s.mask s.payload.length buf,
           need := s.need - buf.length }

/-- Statement helper: running `send_closed` from `s` emits exactly one
close notification followed by one write of a close reply carrying the
given final reason and code, and nothing else. -/
def sentCloseReply (s : WSState) (reason : List Nat) (code : Nat) : Prop :=
  ∃ a b, (send_closed s).events =
    s.events ++ [Event.closedNotify a b,
                 Event.ioWrite (createWebsocketCloseReply reason code)]

/-- Concrete state holding a completed Close payload with code 1000 and
reason "hi" (witness input). -/
def closePayloadWS : WSState :=
  { initWS with payload := [3, 232, 104, 105] }

/-- Concrete state awaiting a 16-bit extended length (witness input). -/
def sizePhaseWS : WSState :=
  { initWS with payloadSize := 126, phase := WSPhase.Size, need := 2 }

/-- Concrete state awaiting the payload of a 1-byte Pong frame (witness
input). -/
def pongPhaseWS : WSState :=
  { initWS with
    finnOpcode := 0x8A, payloadSize := 1,
    mask := [0, 0, 0, 0], phase := WSPhase.Payload, need := 1 }

theorem maskBytes_length (key : List Nat) : ∀ (ix : Nat) (bs : List Nat),
    (maskBytes key ix bs).length = bs.length := by
  intro ix bs
  induction bs generalizing ix with
  | nil => rfl
  | cons b bs ih => simp [maskBytes, ih]

theorem maskBytes_maskBytes (key : List Nat) : ∀ (ix : Nat) (bs : List Nat),
    maskBytes key ix (maskBytes key ix bs) = bs := by
  intro ix bs
  induction bs generalizing ix with
  | nil => rfl
  | cons b bs ih => simp [maskBytes, ih, Nat.xor_cancel_right]

/-- C6: for every byte sequence P and every 4-byte mask key K, applying
the engine's XOR unmasking (byte i XORed with K[i mod 4]) twice to P
reproduces P exactly: the masking transformation is involutive. -/
theorem C6_mask_involutive (K P : List Nat) :
    maskBytes K 0 (maskBytes K 0 P) = P :=
  maskBytes_maskBytes K 0 P

/-- C8: for every close code below 2^16 and every reason string, the
close-frame builder produces a 2-byte header, the 2 big-endian bytes of
the code, then the reason's UTF-8 encoding truncated to at most 123
bytes, so the close-frame payload never exceeds 125 bytes. -/
theorem C8_close_reply_shape (msg : List Nat) (closeCode : Nat)
    (h : closeCode < 65536) :
    createWebsocketCloseReply msg closeCode =
      [0x88, ((utf8Encode msg).take 123).length + 2, closeCode / 256, closeCode % 256] ++
        (utf8Encode msg).take 123 ∧
    ((utf8Encode msg).take 123).length + 2 ≤ 125 := by
  have hlen : ((utf8Encode msg).take 123).length ≤ 123 := by
    simp [List.length_take]
  have hhi : (closeCode >>> 8) &&& 0xff = closeCode / 256 := by
    have e1 : (closeCode >>> 8) &&& 0xff = (closeCode >>> 8) % 256 :=
      Nat.and_pow_two_sub_one_eq_mod _ 8
    have e2 : closeCode >>> 8 = closeCode / 256 := Nat.shiftRight_eq_div_pow _ 8
    rw [e1, e2]
    exact Nat.mod_eq_of_lt (by omega)
  have hlo : closeCode &&& 0xff = closeCode % 256 :=
    Nat.and_pow_two_sub_one_eq_mod _ 8
  refine ⟨?_, by omega⟩
  simp only [createWebsocketCloseReply, createWebsocketHeader, OpCodeClose]
  rw [if_pos (by omega)]
  simp [hhi, hlo]

theorem C8_witness :
    1000 < 65536 ∧
    (createWebsocketCloseReply [97] 1000 =
        [0x88, ((utf8Encode [97]).take 123).length + 2, 1000 / 256, 1000 % 256] ++
          (utf8Encode [97]).take 123 ∧
      ((utf8Encode [97]).take 123).length + 2 ≤ 125) :=
  ⟨by norm_num, C8_close_reply_shape [97] 1000 (by norm_num)⟩

/-- C3: evaluation of the code at the failing input.  The input is a
non-final Text frame with empty payload followed by a final Continue
frame whose payload `[0xFF]` is invalid UTF-8 (all masks zero).  The
claim requires the connection to be closed at message completion, but
the code leaves the connection open and delivers a text message decoded
as U+FFFD: the `payload == message` shortcut in `send_text` skips the
`failed` check. -/
theorem C3_code_eval :
    (readyRead 4096 65536 initWS
        [0x01, 0x80, 0, 0, 0, 0, 0x80, 0x81, 0, 0, 0, 0, 0xFF]).1.closed = false ∧
    (readyRead 4096 65536 initWS
        [0x01, 0x80, 0, 0, 0, 0, 0x80, 0x81, 0, 0, 0, 0, 0xFF]).1.events =
      [Event.textFrame [] false, Event.textMessage [0xFFFD]] :=
  ⟨rfl, rfl⟩

/-- C7: in the extended-length phase, a declared length above the
configured maximum closes the connection with no close reply written and
no change to any buffer; a declared length within the maximum moves to
the mask phase needing exactly 4 bytes. -/
theorem C7_size_limit (maxSize : Nat) (s : WSState) (buf : List Nat)
    (h : s.payloadSize = 126 ∨ s.payloadSize = 127) :
    (maxSize < (if s.payloadSize = 126 then ws_be16 buf else ws_be64 buf) →
       websocket_parse_size maxSize s buf = (false, { s with closed := true })) ∧
    ((if s.payloadSize = 126 then ws_be16 buf else ws_be64 buf) ≤ maxSize →
       websocket_parse_size maxSize s buf =
         (true, { s with
                  payloadSize :=
                    (if s.payloadSize = 126 then ws_be16 buf else ws_be64 buf),
                  need := 4, phase := WSPhase.Mask })) := by
  constructor <;> intro hsz <;>
    simp only [websocket_parse_size, if_pos h, connectionClose]
  · rw [if_pos hsz]
  · rw [if_neg (by omega)]

theorem C7_witness :
    (sizePhaseWS.payloadSize = 126 ∨ sizePhaseWS.payloadSize = 127) ∧
    websocket_parse_size 10 sizePhaseWS [1, 0] =
      (false, { sizePhaseWS with closed := true }) := by
  have h := C7_size_limit 10 sizePhaseWS [1, 0] (by decide)
  exact ⟨by decide, h.1 (by decide)⟩

/-- C9: a masked Pong frame with FIN set is accepted by the header
decoder for every 7-bit length field, including the 126/127 extended
markers (the 125-byte control limit applies only to Ping and Close), and
on completion the full unmasked payload is delivered through the pong
notification. -/
theorem C9_pong_unlimited :
    (∀ (s : WSState) (b2 : Nat), b2 < 256 → b2 >>> 7 ≠ 0 →
       (websocket_parse_header s 0x8A b2).1 = true ∧
       ((websocket_parse_header s 0x8A b2).2.phase = WSPhase.Size ∨
        (websocket_parse_header s 0x8A b2).2.phase = WSPhase.Mask)) ∧
    (∀ (s : WSState) (buf : List Nat), s.finnOpcode &&& 0xf = OpCodePong →
       s.payloadSize ≤ s.payload.length + buf.length →
       websocket_parse_payload s buf =
         (true, { s with payload := s.payload ++ maskBytes s.mask s.payload.length buf,
                         need := 2, phase := WSPhase.Headers,
                         events := s.events ++
                           [Event.pongReceived
                             (s.payload ++ maskBytes s.mask s.payload.length buf)] })) := by
  constructor
  · intro s b2 hb hm
    have e1 : (0x8A : Nat) &&& 0xf = 10 := by decide
    have e2 : (0x8A : Nat) &&& 0x70 = 0 := by decide
    have e3 : (0x8A : Nat) &&& 0x80 = 128 := by decide
    simp only [websocket_parse_header, OpCodePing, OpCodeClose, OpCodeText,
      OpCodeBinary, OpCodeContinue, OpCodeReserved3, OpCodeReserved7,
      OpCodeReservedB, OpCodeReservedF, e1, e2, e3]
    rw [if_neg (by
      rintro (h | ⟨h9 | h9, hx⟩ | h70 | ⟨h3, h7⟩ | ⟨h11, hx2⟩ | ⟨h128, hx3⟩ |
        ⟨hc, h1 | h1⟩) <;> first | exact hm h | omega)]
    rw [if_neg (show ¬((10 : Nat) = 1 ∨ (10 : Nat) = 2) by decide)]
    split
    · exact ⟨rfl, Or.inl rfl⟩
    · split
      · exact ⟨rfl, Or.inl rfl⟩
      · exact ⟨rfl, Or.inr rfl⟩
  · intro s buf hop hlen
    have hl := maskBytes_length s.mask s.payload.length buf
    simp only [websocket_parse_payload]
    rw [if_neg (by simp only [List.length_append, hl]; omega)]
    simp [wsDispatch, hop, OpCodePong, OpCodeContinue, OpCodeText, OpCodeBinary,
      OpCodeClose, OpCodePing]

theorem C9_witness :
    ((0x82 : Nat) < 256 ∧ (0x82 : Nat) >>> 7 ≠ 0 ∧
      (websocket_parse_header initWS 0x8A 0x82).1 = true) ∧
    (pongPhaseWS.finnOpcode &&& 0xf = OpCodePong ∧
      pongPhaseWS.payloadSize ≤ pongPhaseWS.payload.length + 1 ∧
      websocket_parse_payload pongPhaseWS [5] =
        (true, { pongPhaseWS with
                 payload := [5], need := 2,
                 phase := WSPhase.Headers, events := [Event.pongReceived [5]] })) := by
  have h1 := (C9_pong_unlimited.1 initWS 0x82 (by norm_num) (by decide)).1
  have h2 := C9_pong_unlimited.2 pongPhaseWS [5] (by decide) (by decide)
  refine ⟨⟨by norm_num, by decide, h1⟩, by decide, by decide, ?_⟩
  rw [h2]
  decide

theorem wsDeclaredLen_head (M b c : Nat) (rest : List Nat) :
    wsDeclaredLen M (b :: c :: rest) = wsDeclaredLen M (0 :: c :: rest) := rfl

/-- C10: for every completed Close frame, the session notification is
emitted exactly once, before the close reply write and the teardown, and
carries the raw pre-rewrite code and reason; for an empty payload the
notification carries the missing-status placeholder 1005 while the reply
sent afterwards carries normal closure 1000. -/
theorem C10_close_notification (s : WSState) :
    (send_closed s).events =
      s.events ++
        [Event.closedNotify (closeRawCode s) (closeRawReason s),
         Event.ioWrite (createWebsocketCloseReply (closeFinal s).2 (closeFinal s).1)] ∧
    (send_closed s).closed = true ∧
    (s.payload = [] →
      closeRawCode s = CloseCodeMissingStatusCode ∧ closeRawReason s = [] ∧
        closeFinal s = (CloseCodeNormal, [])) := by
  refine ⟨by simp [send_closed, connectionClose], rfl, ?_⟩
  intro he
  refine ⟨?_, ?_, ?_⟩ <;>
    simp [closeRawCode, closeRawReason, closeRawState, closeFinal, he,
      CloseCodeMissingStatusCode, CloseCodeNormal, CloseCodeGoingAway,
      CloseCodeProtocolError, CloseCodeDatatypeNotSupported, CloseCodeWrongDatatype,
      CloseCodePolicyViolated, CloseCodeTooMuchData, CloseCodeMissingExtension,
      CloseCodeBadOperation]

theorem C10_witness :
    initWS.payload = [] ∧
    (closeRawCode initWS = CloseCodeMissingStatusCode ∧ closeRawReason initWS = [] ∧
      closeFinal initWS = (CloseCodeNormal, [])) := by
  have h := C10_close_notification initWS
  exact ⟨rfl, h.2.2 rfl⟩

/-- C4: resolution of the close code carried in the close reply.  An
empty payload yields normal closure with empty reason; a non-empty
payload shorter than 2 bytes, or one whose first two bytes reconstruct
the missing-status placeholder, yields protocol error 1002; an invalid
reason yields 1002 with the reason cleared; codes in 3000-4999 pass
through; a code outside 3000-4999 not in the legal set is rewritten to
1002 with empty reason; a legal code such as 1000 with a valid reason is
echoed exactly, and the close reply written carries the resolved pair. -/
theorem C4_close_resolution (s : WSState) :
    sentCloseReply s (closeFinal s).2 (closeFinal s).1 ∧
    (s.payload = [] → closeFinal s = (CloseCodeNormal, [])) ∧
    (s.payload ≠ [] → s.payload.length < 2 →
      closeFinal s = (CloseCodeProtocolError, [])) ∧
    (((closeRawState s).invalidChars ≠ 0 ∨ (closeRawState s).remainingChars ≠ 0) →
      closeFinal s = (CloseCodeProtocolError, [])) ∧
    ((closeRawState s).invalidChars = 0 → (closeRawState s).remainingChars = 0 →
      (2 ≤ s.payload.length → closeRawCode s = CloseCodeMissingStatusCode →
        closeFinal s = (CloseCodeProtocolError, closeRawReason s)) ∧
      (3000 ≤ closeRawCode s → closeRawCode s ≤ 4999 →
        closeFinal s = (closeRawCode s, closeRawReason s)) ∧
      ((closeRawCode s < 3000 ∨ 4999 < closeRawCode s) →
        closeRawCode s ≠ CloseCodeNormal → closeRawCode s ≠ CloseCodeGoingAway →
        closeRawCode s ≠ CloseCodeProtocolError →
        closeRawCode s ≠ CloseCodeDatatypeNotSupported →
        closeRawCode s ≠ CloseCodeWrongDatatype →
        closeRawCode s ≠ CloseCodePolicyViolated →
        closeRawCode s ≠ CloseCodeTooMuchData →
        closeRawCode s ≠ CloseCodeMissingExtension →
        closeRawCode s ≠ CloseCodeBadOperation →
        closeRawCode s ≠ CloseCodeMissingStatusCode →
        closeFinal s = (CloseCodeProtocolError, [])) ∧
      (closeRawCode s = CloseCodeNormal →
        closeFinal s = (CloseCodeNormal, closeRawReason s))) := by
  refine ⟨⟨closeRawCode s, closeRawReason s, by simp [send_closed, connectionClose]⟩,
    ?_, ?_, ?_, ?_⟩
  · intro he
    simp [closeFinal, closeRawCode, closeRawReason, closeRawState, he,
      CloseCodeMissingStatusCode, CloseCodeNormal, CloseCodeGoingAway,
      CloseCodeProtocolError, CloseCodeDatatypeNotSupported, CloseCodeWrongDatatype,
      CloseCodePolicyViolated, CloseCodeTooMuchData, CloseCodeMissingExtension,
      CloseCodeBadOperation]
  · intro hne hlt
    have h2 : ¬2 ≤ s.payload.length := by omega
    simp [closeFinal, closeRawCode, closeRawReason, closeRawState, h2, hne,
      CloseCodeMissingStatusCode, CloseCodeNormal, CloseCodeGoingAway,
      CloseCodeProtocolError, CloseCodeDatatypeNotSupported, CloseCodeWrongDatatype,
      CloseCodePolicyViolated, CloseCodeTooMuchData, CloseCodeMissingExtension,
      CloseCodeBadOperation]
  · intro hinv
    simp only [closeFinal]
    rw [if_pos hinv]
  · intro hi hr
    have hval : ¬((closeRawState s).invalidChars ≠ 0 ∨
        (closeRawState s).remainingChars ≠ 0) := by simp [hi, hr]
    refine ⟨?_, ?_, ?_, ?_⟩
    · intro hlen hcode
      have hne : s.payload ≠ [] := by
        intro he; rw [he] at hlen; simp at hlen
      simp only [closeFinal]
      rw [if_neg hval, if_pos (by rw [hcode]; exact Or.inl (by decide)),
        if_neg (by rw [hcode]; decide), if_pos (by rw [hcode]), if_neg hne]
    · intro h3 h4
      simp only [closeFinal]
      rw [if_neg hval, if_neg (by omega)]
    · intro hout hn1 hn2 hn3 hn4 hn5 hn6 hn7 hn8 hn9 hn10
      simp only [closeFinal]
      rw [if_neg hval, if_pos hout,
        if_neg (by simp [hn1, hn2, hn3, hn4, hn5, hn6, hn7, hn8, hn9]),
        if_neg hn10]
    · intro hcode
      simp only [closeFinal]
      rw [if_neg hval, if_pos (by rw [hcode]; exact Or.inl (by decide)),
        if_pos (Or.inl hcode), hcode]

theorem C4_witness :
    ((closeRawState closePayloadWS).invalidChars = 0 ∧
      (closeRawState closePayloadWS).remainingChars = 0 ∧
      closeRawCode closePayloadWS = CloseCodeNormal) ∧
    closeFinal closePayloadWS = (CloseCodeNormal, closeRawReason closePayloadWS) := by
  have h := C4_close_resolution closePayloadWS
  exact ⟨⟨by decide, by decide, by decide⟩,
    (h.2.2.2.2 (by decide) (by decide)).2.2.2 (by decide)⟩

/-- C5: encoding a frame header for each boundary length L and running
the decoder's length pipeline (header length field plus the 16/64-bit
big-endian extended-length phase) over the produced bytes yields exactly
L, with the direct 7-bit form below 126, the 126 marker plus 2 big-endian
bytes up to 65535, and the 127 marker plus 8 big-endian bytes above. -/
theorem C5_length_roundtrip (op : Nat) :
    (createWebsocketHeader op 0 = (0x80 + op) % 256 :: [0] ∧
      wsDeclaredLen (2 ^ 40) (createWebsocketHeader op 0) = some 0) ∧
    (createWebsocketHeader op 1 = (0x80 + op) % 256 :: [1] ∧
      wsDeclaredLen (2 ^ 40) (createWebsocketHeader op 1) = some 1) ∧
    (createWebsocketHeader op 125 = (0x80 + op) % 256 :: [125] ∧
      wsDeclaredLen (2 ^ 40) (createWebsocketHeader op 125) = some 125) ∧
    (createWebsocketHeader op 126 = (0x80 + op) % 256 :: [126, 0, 126] ∧
      wsDeclaredLen (2 ^ 40) (createWebsocketHeader op 126) = some 126) ∧
    (createWebsocketHeader op 127 = (0x80 + op) % 256 :: [126, 0, 127] ∧
      wsDeclaredLen (2 ^ 40) (createWebsocketHeader op 127) = some 127) ∧
    (createWebsocketHeader op 65535 = (0x80 + op) % 256 :: [126, 255, 255] ∧
      wsDeclaredLen (2 ^ 40) (createWebsocketHeader op 65535) = some 65535) ∧
    (createWebsocketHeader op 65536 =
        (0x80 + op) % 256 :: [127, 0, 0, 0, 0, 0, 1, 0, 0] ∧
      wsDeclaredLen (2 ^ 40) (createWebsocketHeader op 65536) = some 65536) ∧
    (createWebsocketHeader op (2 ^ 32) =
        (0x80 + op) % 256 :: [127, 0, 0, 0, 1, 0, 0, 0, 0] ∧
      wsDeclaredLen (2 ^ 40) (createWebsocketHeader op (2 ^ 32)) = some (2 ^ 32)) ∧
    (createWebsocketHeader op (2 ^ 33) =
        (0x80 + op) % 256 :: [127, 0, 0, 0, 2, 0, 0, 0, 0] ∧
      wsDeclaredLen (2 ^ 40) (createWebsocketHeader op (2 ^ 33)) = some (2 ^ 33)) := by
  refine ⟨⟨rfl, ?_⟩, ⟨rfl, ?_⟩, ⟨rfl, ?_⟩, ⟨rfl, ?_⟩, ⟨rfl, ?_⟩, ⟨rfl, ?_⟩,
    ⟨rfl, ?_⟩, ⟨rfl, ?_⟩, ⟨rfl, ?_⟩⟩
  · rw [show createWebsocketHeader op 0 = (0x80 + op) % 256 :: [0] from rfl,
      wsDeclaredLen_head]
    decide
  · rw [show createWebsocketHeader op 1 = (0x80 + op) % 256 :: [1] from rfl,
      wsDeclaredLen_head]
    decide
  · rw [show createWebsocketHeader op 125 = (0x80 + op) % 256 :: [125] from rfl,
      wsDeclaredLen_head]
    decide
  · rw [show createWebsocketHeader op 126 = (0x80 + op) % 256 :: [126, 0, 126] from rfl,
      wsDeclaredLen_head]
    decide
  · rw [show createWebsocketHeader op 127 = (0x80 + op) % 256 :: [126, 0, 127] from rfl,
      wsDeclaredLen_head]
    decide
  · rw [show createWebsocketHeader op 65535 = (0x80 + op) % 256 :: [126, 255, 255] from rfl,
      wsDeclaredLen_head]
    decide
  · rw [show createWebsocketHeader op 65536 =
        (0x80 + op) % 256 :: [127, 0, 0, 0, 0, 0, 1, 0, 0] from rfl,
      wsDeclaredLen_head]
    decide
  · rw [show createWebsocketHeader op (2 ^ 32) =
        (0x80 + op) % 256 :: [127, 0, 0, 0, 1, 0, 0, 0, 0] from rfl,
      wsDeclaredLen_head]
    decide
  · rw [show createWebsocketHeader op (2 ^ 33) =
        (0x80 + op) % 256 :: [127, 0, 0, 0, 2, 0, 0, 0, 0] from rfl,
      wsDeclaredLen_head]
    decide

set_option maxRecDepth 8000 in
theorem bitBridge (x : Nat) (hx : x < 256) :
    ((x >>> 7 = 0) ↔ x.testBit 7 = false) ∧
    ((x &&& 0x70 ≠ 0) ↔
      (x.testBit 4 = true ∨ x.testBit 5 = true ∨ x.testBit 6 = true)) ∧
    ((x &&& 0x80 = 0) ↔ x.testBit 7 = false) ∧
    (x &&& 0x7f = x % 128) ∧
    (x &&& 0xf = x % 16) := by
  have h : ∀ y : Fin 256,
      (((y : Nat) >>> 7 = 0) ↔ Nat.testBit y 7 = false) ∧
      (((y : Nat) &&& 0x70 ≠ 0) ↔
        (Nat.testBit y 4 = true ∨ Nat.testBit y 5 = true ∨ Nat.testBit y 6 = true)) ∧
      (((y : Nat) &&& 0x80 = 0) ↔ Nat.testBit y 7 = false) ∧
      ((y : Nat) &&& 0x7f = (y : Nat) % 128) ∧
      ((y : Nat) &&& 0xf = (y : Nat) % 16) := by decide
  exact h ⟨x, hx⟩

theorem headerCondBridge (co b1 b2 : Nat) (h1 : b1 < 256) (h2 : b2 < 256) :
    (b2 >>> 7 = 0 ∨
     ((b1 &&& 0xf = OpCodePing ∨ b1 &&& 0xf = OpCodeClose) ∧ 125 < (b2 &&& 0x7f)) ∨
     b1 &&& 0x70 ≠ 0 ∨
     (OpCodeReserved3 ≤ b1 &&& 0xf ∧ b1 &&& 0xf ≤ OpCodeReserved7) ∨
     (OpCodeReservedB ≤ b1 &&& 0xf ∧ b1 &&& 0xf ≤ OpCodeReservedF) ∨
     (b1 &&& 0x80 = 0 ∧ b1 &&& 0xf ≠ OpCodeText ∧ b1 &&& 0xf ≠ OpCodeBinary ∧
       b1 &&& 0xf ≠ OpCodeContinue) ∨
     (co ≠ 0 ∧ (b1 &&& 0xf = OpCodeText ∨ b1 &&& 0xf = OpCodeBinary)))
    ↔ headerRejectSpec (co ≠ 0) b1 b2 := by
  obtain ⟨e17, e470, e480, e47f, e4f⟩ := bitBridge b1 h1
  obtain ⟨e27, h470, h480, e27f, h4f⟩ := bitBridge b2 h2
  unfold headerRejectSpec
  simp only [OpCodePing, OpCodeClose, OpCodeText, OpCodeBinary, OpCodeContinue,
    OpCodeReserved3, OpCodeReserved7, OpCodeReservedB, OpCodeReservedF]
  rw [e4f, e27f, e27, e470, e480]
  simp only [not_or]

/-- C1: the header decoder rejects a 2-byte frame header, writing a 1002
close reply and closing without advancing the parsing phase, exactly when
the mask bit is clear, a Ping/Close opcode carries a 7-bit length over
125, an RSV bit is set, the opcode is reserved, FIN is clear with a
non-data opcode, or a continuation is open and a new Text/Binary frame
starts; otherwise the header is accepted and parsing proceeds to the
size or mask phase. -/
theorem C1_header_validation (s : WSState) (b1 b2 : Nat)
    (h1 : b1 < 256) (h2 : b2 < 256) :
    ((websocket_parse_header s b1 b2).1 = false ↔
      headerRejectSpec (s.continueOpcode ≠ 0) b1 b2) ∧
    ((websocket_parse_header s b1 b2).1 = false →
      (websocket_parse_header s b1 b2).2.phase = s.phase ∧
      (websocket_parse_header s b1 b2).2.closed = true ∧
      (websocket_parse_header s b1 b2).2.events =
        s.events ++ [Event.ioWrite (createWebsocketCloseReply [] 1002)]) ∧
    ((websocket_parse_header s b1 b2).1 = true →
      (websocket_parse_header s b1 b2).2.closed = s.closed ∧
      ((websocket_parse_header s b1 b2).2.phase = WSPhase.Size ∨
       (websocket_parse_header s b1 b2).2.phase = WSPhase.Mask)) := by
  have key := headerCondBridge s.continueOpcode b1 b2 h1 h2
  simp only [websocket_parse_header]
  split
  next hC =>
    exact ⟨iff_of_true rfl (key.mp hC), fun _ => ⟨rfl, rfl, rfl⟩, fun h => nomatch h⟩
  next hC =>
    have hns : ¬headerRejectSpec (s.continueOpcode ≠ 0) b1 b2 :=
      fun hs => hC (key.mpr hs)
    refine ⟨iff_of_false ?_ hns, fun h => absurd h ?_, fun _ => ⟨?_, ?_⟩⟩ <;>
      split <;> (try split) <;> (try split) <;> (try split) <;> simp

theorem C1_witness :
    ((0x81 : Nat) < 256 ∧ (0x02 : Nat) < 256) ∧
    ((websocket_parse_header initWS 0x81 0x02).1 = false ↔
      headerRejectSpec (initWS.continueOpcode ≠ 0) 0x81 0x02) :=
  ⟨⟨by decide, by decide⟩,
    (C1_header_validation initWS 0x81 0x02 (by decide) (by decide)).1⟩

theorem maskBytes_append (key : List Nat) : ∀ (ix : Nat) (u v : List Nat),
    maskBytes key ix (u ++ v) = maskBytes key ix u ++ maskBytes key (ix + u.length) v := by
  intro ix u
  induction u generalizing ix with
  | nil => intro v; simp [maskBytes]
  | cons x xs ih =>
    intro v
    simp only [List.cons_append, maskBytes, List.append_eq, ih (ix + 1),
      List.length_cons]
    rw [show ix + 1 + xs.length = ix + (xs.length + 1) from by omega]

theorem websocket_parse_payload_absorbs (s : WSState) (buf : List Nat)
    (h : s.payload.length + buf.length < s.payloadSize) :
    websocket_parse_payload s buf = (true, absorbState s buf) := by
  simp only [websocket_parse_payload, absorbState]
  rw [if_pos (by simp [maskBytes_length, List.length_append]; omega)]

theorem absorbState_absorbState (s : WSState) (u v : List Nat) :
    absorbState (absorbState s u) v = absorbState s (u ++ v) := by
  simp [absorbState, maskBytes_append, maskBytes_length, List.append_assoc,
    List.length_append, Nat.sub_sub]

theorem websocket_parse_payload_split (s : WSState) (u v : List Nat) :
    websocket_parse_payload s (u ++ v) =
      websocket_parse_payload (absorbState s u) v := by
  simp only [websocket_parse_payload, absorbState, maskBytes_append,
    maskBytes_length, List.length_append, List.append_assoc]
  simp [Nat.sub_sub]

theorem wsRun_nil (m M f : Nat) (s : WSState) : wsRun m M f s [] = (s, []) := by
  cases f with
  | zero => rfl
  | succ g => simp [wsRun, wsStop]

theorem wsRun_stop (m M f : Nat) (s : WSState) (avail : List Nat)
    (h : wsStop s avail) : wsRun m M f s avail = (s, avail) := by
  cases f with
  | zero => rfl
  | succ g => simp [wsRun, h]

theorem wsStep_rest (m M : Nat) (s : WSState) (avail : List Nat) :
    (wsStep m M s avail).2.2 = avail.drop (min s.need (min m avail.length)) := by
  simp only [wsStep]
  split <;> (try split) <;> (try split) <;> rfl

theorem wsStop_not (s : WSState) (avail : List Nat) (h : ¬wsStop s avail) :
    1 ≤ avail.length ∧ 1 ≤ s.need := by
  unfold wsStop at h
  push_neg at h
  omega

theorem wsRun_fuel (m M : Nat) (hm : 1 ≤ m) :
    ∀ (f1 f2 : Nat) (s : WSState) (avail : List Nat),
      avail.length ≤ f1 → avail.length ≤ f2 →
      wsRun m M f1 s avail = wsRun m M f2 s avail := by
  intro f1
  induction f1 with
  | zero =>
    intro f2 s avail h1 h2
    have he : avail = [] := List.length_eq_zero.mp (by omega)
    subst he
    rw [wsRun_nil, wsRun_nil]
  | succ n ih =>
    intro f2 s avail h1 h2
    cases f2 with
    | zero =>
      have he : avail = [] := List.length_eq_zero.mp (by omega)
      subst he
      rw [wsRun_nil, wsRun_nil]
    | succ k =>
      by_cases hstop : wsStop s avail
      · rw [wsRun_stop _ _ _ _ _ hstop, wsRun_stop _ _ _ _ _ hstop]
      · obtain ⟨ha, hn⟩ := wsStop_not s avail hstop
        have hrest : (wsStep m M s avail).2.2.length ≤ n ∧
            (wsStep m M s avail).2.2.length ≤ k := by
          rw [wsStep_rest]
          simp only [List.length_drop]
          omega
        simp only [wsRun, if_neg hstop]
        split
        · exact ih k _ _ hrest.1 hrest.2
        · rfl

theorem send_binary_closed (b : Bool) (s : WSState) :
    (send_binary b s).closed = s.closed := by
  simp only [send_binary]
  split <;> (try split) <;> rfl

theorem send_text_closed (b : Bool) (s : WSState) (h : s.closed = true) :
    (send_text b s).2.closed = true := by
  simp only [send_text]
  split <;> (try split) <;> (try split) <;> (try split) <;> (try split) <;>
    (try split) <;> simp [connectionClose, h]

theorem send_text_false (b : Bool) (s : WSState) :
    (send_text b s).1 = false → (send_text b s).2.closed = true := by
  simp only [send_text]
  split <;> (try split) <;> (try split) <;> (try split) <;> (try split) <;>
    (try split) <;> simp [connectionClose]

theorem wsDispatch_closed (s : WSState) (h : s.closed = true) :
    (wsDispatch s).2.closed = true := by
  simp only [wsDispatch]
  split <;> (try split) <;> (try split) <;> (try split) <;> (try split) <;>
    (try split) <;> (try split) <;>
    simp [send_text_closed _ _ h, send_binary_closed, send_pong, send_closed,
      connectionClose, h]

theorem wsDispatch_false (s : WSState) :
    (wsDispatch s).1 = false → (wsDispatch s).2.closed = true := by
  simp only [wsDispatch]
  split <;> (try split) <;> (try split) <;> (try split) <;> (try split) <;>
    (try split) <;> (try split) <;>
    first
      | exact fun _ => rfl
      | exact send_text_false _ _
      | simp [send_closed, connectionClose]

theorem websocket_parse_payload_closed (s : WSState) (buf : List Nat)
    (h : s.closed = true) : (websocket_parse_payload s buf).2.closed = true := by
  simp only [websocket_parse_payload]
  split
  · exact h
  · exact wsDispatch_closed _ h

theorem websocket_parse_payload_false (s : WSState) (buf : List Nat) :
    (websocket_parse_payload s buf).1 = false →
      (websocket_parse_payload s buf).2.closed = true := by
  simp only [websocket_parse_payload]
  split
  · simp
  · exact wsDispatch_false _

theorem websocket_parse_mask_closed (s : WSState) (buf : List Nat)
    (h : s.closed = true) : (websocket_parse_mask s buf).closed = true := by
  simp only [websocket_parse_mask]
  split
  · exact websocket_parse_payload_closed _ _ h
  · exact h

theorem websocket_parse_header_closed (s : WSState) (b1 b2 : Nat)
    (h : s.closed = true) : (websocket_parse_header s b1 b2).2.closed = true := by
  simp only [websocket_parse_header]
  split
  · rfl
  · split <;> (try split) <;> (try split) <;> (try split) <;> exact h

theorem websocket_parse_header_false (s : WSState) (b1 b2 : Nat) :
    (websocket_parse_header s b1 b2).1 = false →
      (websocket_parse_header s b1 b2).2.closed = true := by
  simp only [websocket_parse_header]
  split
  · exact fun _ => rfl
  · split <;> (try split) <;> (try split) <;> (try split) <;> simp

theorem websocket_parse_size_closed (M : Nat) (s : WSState) (buf : List Nat)
    (h : s.closed = true) : (websocket_parse_size M s buf).2.closed = true := by
  simp only [websocket_parse_size]
  split <;> (try split) <;> (try split) <;> simp [connectionClose, h]

theorem websocket_parse_size_false (M : Nat) (s : WSState) (buf : List Nat) :
    (websocket_parse_size M s buf).1 = false →
      (websocket_parse_size M s buf).2.closed = true := by
  simp only [websocket_parse_size]
  split <;> (try split) <;> (try split) <;> simp [connectionClose]

theorem wsStep_closed (m M : Nat) (s : WSState) (avail : List Nat)
    (h : s.closed = true) : (wsStep m M s avail).2.1.closed = true := by
  simp only [wsStep]
  split <;> (try split) <;> (try split) <;>
    simp [websocket_parse_header_closed _ _ _ h, websocket_parse_size_closed _ _ _ h,
      websocket_parse_mask_closed _ _ h, websocket_parse_payload_closed _ _ h]

theorem wsStep_false (m M : Nat) (s : WSState) (avail : List Nat) :
    (wsStep m M s avail).1 = false → (wsStep m M s avail).2.1.closed = true := by
  simp only [wsStep]
  split <;> (try split) <;> (try split) <;>
    first
      | exact websocket_parse_header_false _ _ _
      | exact websocket_parse_size_false _ _ _
      | exact websocket_parse_payload_false _ _
      | simp

theorem wsRun_closed (m M : Nat) : ∀ (f : Nat) (s : WSState) (avail : List Nat),
    s.closed = true → (wsRun m M f s avail).1.closed = true := by
  intro f
  induction f with
  | zero => intro s avail h; exact h
  | succ n ih =>
    intro s avail h
    simp only [wsRun]
    split
    · exact h
    · split
      · exact ih _ _ (wsStep_closed m M s avail h)
      · exact wsStep_closed m M s avail h

theorem WSInv_of_headers2 (s : WSState) (h1 : s.phase = WSPhase.Headers)
    (h2 : s.need = 2) : WSInv s := by
  refine ⟨fun _ => h2, fun hq => ?_, fun hq => ?_, fun hq => ?_⟩ <;>
    rw [h1] at hq <;> exact absurd hq (by decide)

theorem send_text_phase_need (b : Bool) (s : WSState) :
    (send_text b s).2.phase = s.phase ∧ (send_text b s).2.need = s.need := by
  simp only [send_text]
  split <;> (try split) <;> (try split) <;> (try split) <;> (try split) <;>
    (try split) <;> exact ⟨rfl, rfl⟩

theorem send_binary_phase_need (b : Bool) (s : WSState) :
    (send_binary b s).phase = s.phase ∧ (send_binary b s).need = s.need := by
  simp only [send_binary]
  split <;> (try split) <;> exact ⟨rfl, rfl⟩

theorem wsDispatch_phase_need (s : WSState) :
    (wsDispatch s).2.phase = s.phase ∧ (wsDispatch s).2.need = s.need := by
  simp only [wsDispatch]
  split <;> (try split) <;> (try split) <;> (try split) <;> (try split) <;>
    (try split) <;> (try split) <;>
    first
      | exact send_text_phase_need _ _
      | exact send_binary_phase_need _ _
      | exact ⟨rfl, rfl⟩

theorem websocket_parse_payload_inv (s : WSState) (buf : List Nat)
    (hp : s.phase = WSPhase.Payload) (h : WSInv s) :
    WSInv (websocket_parse_payload s buf).2 := by
  obtain ⟨hlt, hneed⟩ := h.2.2.2 hp
  simp only [websocket_parse_payload]
  split
  next hcond =>
    refine ⟨fun hq => ?_, fun hq => ?_, fun hq => ?_, fun hq => ?_⟩
    · have hq2 : s.phase = WSPhase.Headers := hq
      rw [hp] at hq2; exact absurd hq2 (by decide)
    · have hq2 : s.phase = WSPhase.Size := hq
      rw [hp] at hq2; exact absurd hq2 (by decide)
    · have hq2 : s.phase = WSPhase.Mask := hq
      rw [hp] at hq2; exact absurd hq2 (by decide)
    · refine ⟨hcond, ?_⟩
      show s.need - buf.length =
        s.payloadSize - (s.payload ++ maskBytes s.mask s.payload.length buf).length
      have hml := maskBytes_length s.mask s.payload.length buf
      simp only [List.length_append, hml]
      omega
  next hcond =>
    exact WSInv_of_headers2 _ ((wsDispatch_phase_need _).1.trans rfl)
      ((wsDispatch_phase_need _).2.trans rfl)

theorem websocket_parse_header_inv (s : WSState) (b1 b2 : Nat)
    (hp : s.phase = WSPhase.Headers) (h : WSInv s) :
    WSInv (websocket_parse_header s b1 b2).2 := by
  have hn := h.1 hp
  simp only [websocket_parse_header, connectionClose]
  split
  · refine ⟨fun _ => hn, fun hq => ?_, fun hq => ?_, fun hq => ?_⟩ <;>
      [skip; skip; skip] <;>
      · have hq2 : s.phase = _ := hq
        rw [hp] at hq2
        exact absurd hq2 (by decide)
  · split <;> (try split) <;> (try split) <;> (try split) <;>
      refine ⟨fun hq => ?_, fun hq => ?_, fun hq => ?_, fun hq => ?_⟩ <;>
      simp_all

theorem websocket_parse_size_inv (M : Nat) (s : WSState) (buf : List Nat)
    (hp : s.phase = WSPhase.Size) (h : WSInv s) :
    WSInv (websocket_parse_size M s buf).2 := by
  have hn := h.2.1 hp
  simp only [websocket_parse_size, connectionClose]
  split <;> (try split) <;> (try split) <;>
    refine ⟨fun hq => ?_, fun hq => ?_, fun hq => ?_, fun hq => ?_⟩ <;>
    simp_all

theorem websocket_parse_mask_inv (s : WSState) (buf : List Nat)
    (hp : s.phase = WSPhase.Mask) (h : WSInv s) :
    WSInv (websocket_parse_mask s buf) := by
  simp only [websocket_parse_mask]
  split
  next hzero =>
    simp only [websocket_parse_payload, maskBytes]
    rw [if_neg (by simp [hzero])]
    exact WSInv_of_headers2 _ ((wsDispatch_phase_need _).1.trans rfl)
      ((wsDispatch_phase_need _).2.trans rfl)
  next hzero =>
    refine ⟨fun hq => ?_, fun hq => ?_, fun hq => ?_, fun hq => ?_⟩ <;> simp_all
    omega

theorem wsStep_inv (m M : Nat) (s : WSState) (avail : List Nat) (h : WSInv s) :
    WSInv (wsStep m M s avail).2.1 := by
  simp only [wsStep]
  split
  next hp => exact websocket_parse_header_inv _ _ _ hp h
  next hp =>
    split
    next hp2 => exact websocket_parse_size_inv _ _ _ hp2 h
    next hp2 =>
      split
      next hp3 => exact websocket_parse_mask_inv _ _ hp3 h
      next hp3 =>
        have hp4 : s.phase = WSPhase.Payload := by
          cases hq : s.phase <;> simp_all
        exact websocket_parse_payload_inv _ _ hp4 h

theorem wsRun_inv (m M : Nat) : ∀ (f : Nat) (s : WSState) (avail : List Nat),
    WSInv s → WSInv (wsRun m M f s avail).1 := by
  intro f
  induction f with
  | zero => intro s avail h; exact h
  | succ n ih =>
    intro s avail h
    simp only [wsRun]
    split
    · exact h
    · split
      · exact ih _ _ (wsStep_inv m M s avail h)
      · exact wsStep_inv m M s avail h

theorem absorbState_nil (s : WSState) : absorbState s [] = s := by
  simp [absorbState, maskBytes]

theorem wsStep_payload (m M : Nat) (s : WSState) (avail : List Nat)
    (hp : s.phase = WSPhase.Payload) :
    wsStep m M s avail =
      ((websocket_parse_payload s (avail.take (min s.need (min m avail.length)))).1,
       (websocket_parse_payload s (avail.take (min s.need (min m avail.length)))).2,
       avail.drop (min s.need (min m avail.length))) := by
  simp [wsStep, hp]

theorem wsStop_not_payload (s : WSState) (avail : List Nat)
    (hp : s.phase = WSPhase.Payload) (hn : s.need ≠ 0) (ha : avail ≠ []) :
    ¬wsStop s avail := by
  intro hco
  rcases hco with h0 | h0 | ⟨_, hq⟩
  · exact ha (List.length_eq_zero.mp h0)
  · exact hn h0
  · exact hq hp

theorem wsRun_absorb (m M : Nat) (hm : 1 ≤ m) :
    ∀ (f : Nat) (s : WSState) (avail : List Nat),
      avail.length ≤ f → s.phase = WSPhase.Payload →
      s.payload.length < s.payloadSize →
      s.need = s.payloadSize - s.payload.length →
      avail.length < s.need →
      wsRun m M f s avail = (absorbState s avail, []) := by
  intro f
  induction f with
  | zero =>
    intro s avail hf hp hlt hneed hlen
    have he : avail = [] := List.length_eq_zero.mp (by omega)
    subst he
    rw [wsRun_nil, absorbState_nil]
  | succ n ih =>
    intro s avail hf hp hlt hneed hlen
    by_cases hnil : avail = []
    · subst hnil
      rw [wsRun_nil, absorbState_nil]
    · have hstop := wsStop_not_payload s avail hp (by omega) hnil
      have hane : 1 ≤ avail.length := by
        cases avail with
        | nil => exact absurd rfl hnil
        | cons x xs => simp
      simp only [wsRun, if_neg hstop, wsStep_payload m M s avail hp]
      have hlen1 : min s.need (min m avail.length) = min m avail.length := by omega
      rw [hlen1]
      have hkb : (avail.take (min m avail.length)).length = min m avail.length := by
        rw [List.length_take]
        omega
      have hpart : s.payload.length + (avail.take (min m avail.length)).length <
          s.payloadSize := by
        rw [hkb]; omega
      rw [websocket_parse_payload_absorbs s _ hpart]
      simp only
      rw [ih (absorbState s (avail.take (min m avail.length)))
            (avail.drop (min m avail.length))
            (by simp [List.length_drop]; omega)
            (by simp [absorbState, hp])
            (by simp [absorbState, List.length_append, maskBytes_length, hkb]; omega)
            (by simp [absorbState, List.length_append, maskBytes_length, hkb]; omega)
            (by simp [absorbState, List.length_append, maskBytes_length, hkb,
                  List.length_drop]; omega)]
      simp [absorbState_absorbState, List.take_append_drop]

theorem wsRun_complete (m M : Nat) (hm : 1 ≤ m) :
    ∀ (f : Nat) (s : WSState) (avail : List Nat),
      avail.length ≤ f → s.phase = WSPhase.Payload →
      s.payload.length < s.payloadSize →
      s.need = s.payloadSize - s.payload.length →
      s.need ≤ avail.length →
      wsRun m M f s avail =
        (if (websocket_parse_payload s (avail.take s.need)).1 then
          wsRun m M (avail.length - s.need)
            (websocket_parse_payload s (avail.take s.need)).2 (avail.drop s.need)
         else ((websocket_parse_payload s (avail.take s.need)).2, avail.drop s.need)) := by
  intro f
  induction f with
  | zero =>
    intro s avail hf hp hlt hneed hlen
    omega
  | succ n ih =>
    intro s avail hf hp hlt hneed hlen
    have hne : avail ≠ [] := by
      intro he
      rw [he] at hlen
      simp at hlen
      omega
    have hstop := wsStop_not_payload s avail hp (by omega) hne
    simp only [wsRun, if_neg hstop, wsStep_payload m M s avail hp]
    by_cases hcase : s.need ≤ m
    · have hlen1 : min s.need (min m avail.length) = s.need := by omega
      rw [hlen1]
      split
      next =>
        exact wsRun_fuel m M hm n (avail.length - s.need) _ _
          (by simp [List.length_drop]; omega) (by simp [List.length_drop])
      next => rfl
    · have hmlt : m < s.need := by omega
      have hlen1 : min s.need (min m avail.length) = m := by omega
      rw [hlen1]
      have hkb : (avail.take m).length = m := by
        rw [List.length_take]
        omega
      have hpart : s.payload.length + (avail.take m).length < s.payloadSize := by
        rw [hkb]; omega
      rw [websocket_parse_payload_absorbs s _ hpart]
      simp only
      rw [ih (absorbState s (avail.take m)) (avail.drop m)
            (by simp [List.length_drop]; omega)
            (by simp [absorbState, hp])
            (by simp [absorbState, List.length_append, maskBytes_length, hkb]; omega)
            (by simp [absorbState, List.length_append, maskBytes_length, hkb]; omega)
            (by simp [absorbState, List.length_append, maskBytes_length, hkb,
                  List.length_drop]; omega)]
      have hneed2 : (absorbState s (avail.take m)).need = s.need - m := by
        simp [absorbState, hkb]
      rw [hneed2]
      have hjoin : websocket_parse_payload (absorbState s (avail.take m))
          ((avail.drop m).take (s.need - m)) =
          websocket_parse_payload s (avail.take s.need) := by
        rw [← websocket_parse_payload_split]
        congr 1
        rw [← List.take_add]
        congr 1
        omega
      rw [hjoin]
      have hdrop : (avail.drop m).drop (s.need - m) = avail.drop s.need := by
        rw [List.drop_drop]
        congr 1
        omega
      rw [hdrop]
      have hfuel : avail.length - m - (s.need - m) = avail.length - s.need := by
        omega
      rw [List.length_drop, hfuel]
      simp

theorem wsRun_unfold (m M : Nat) (hm : 1 ≤ m) (f : Nat) (s : WSState)
    (avail : List Nat) (hf : avail.length ≤ f) (hstop : ¬wsStop s avail) :
    wsRun m M f s avail =
      (if (wsStep m M s avail).1 then
        readyRead m M (wsStep m M s avail).2.1 (wsStep m M s avail).2.2
      else ((wsStep m M s avail).2.1, (wsStep m M s avail).2.2)) := by
  cases f with
  | zero =>
    exfalso
    have he : avail = [] := List.length_eq_zero.mp (by omega)
    exact hstop (Or.inl (by simp [he]))
  | succ n =>
    obtain ⟨h1a, h1n⟩ := wsStop_not s avail hstop
    simp only [wsRun, if_neg hstop]
    split
    · refine wsRun_fuel m M hm n _ _ _ ?_ (le_refl _)
      rw [wsStep_rest, List.length_drop]
      omega
    · rfl

theorem readyRead_unfold (m M : Nat) (hm : 1 ≤ m) (s : WSState)
    (avail : List Nat) (hstop : ¬wsStop s avail) :
    readyRead m M s avail =
      (if (wsStep m M s avail).1 then
        readyRead m M (wsStep m M s avail).2.1 (wsStep m M s avail).2.2
      else ((wsStep m M s avail).2.1, (wsStep m M s avail).2.2)) :=
  wsRun_unfold m M hm avail.length s avail (le_refl _) hstop

theorem readyRead_stop (m M : Nat) (s : WSState) (avail : List Nat)
    (h : wsStop s avail) : readyRead m M s avail = (s, avail) :=
  wsRun_stop m M avail.length s avail h

theorem readyRead_stuck (m M : Nat) (hm : 1 ≤ m) :
    ∀ (n : Nat) (s : WSState) (avail : List Nat), avail.length ≤ n →
      (readyRead m M s avail).1.closed = false →
      readyRead m M (readyRead m M s avail).1 (readyRead m M s avail).2 =
        readyRead m M s avail := by
  intro n
  induction n with
  | zero =>
    intro s avail ha _
    have he : avail = [] := List.length_eq_zero.mp (by omega)
    subst he
    rfl
  | succ n ih =>
    intro s avail ha hcl
    by_cases hstop : wsStop s avail
    · rw [readyRead_stop _ _ _ _ hstop]
      exact readyRead_stop _ _ _ _ hstop
    · obtain ⟨h1a, h1n⟩ := wsStop_not s avail hstop
      rw [readyRead_unfold m M hm s avail hstop] at hcl ⊢
      by_cases hb : (wsStep m M s avail).1 = true
      · rw [if_pos hb] at hcl ⊢
        refine ih _ _ ?_ hcl
        rw [wsStep_rest, List.length_drop]
        omega
      · rw [if_neg hb] at hcl ⊢
        have hc2 : (wsStep m M s avail).2.1.closed = false := hcl
        have hc3 := wsStep_false m M s avail (by simpa using hb)
        rw [hc3] at hc2
        exact absurd hc2 (by simp)

theorem readyRead_absorb (m M : Nat) (hm : 1 ≤ m) (s : WSState) (avail : List Nat)
    (hP : s.phase = WSPhase.Payload) (hlt : s.payload.length < s.payloadSize)
    (hneed : s.need = s.payloadSize - s.payload.length)
    (h : avail.length < s.need) :
    readyRead m M s avail = (absorbState s avail, []) :=
  wsRun_absorb m M hm avail.length s avail (le_refl _) hP hlt hneed h

theorem readyRead_complete (m M : Nat) (hm : 1 ≤ m) (s : WSState) (avail : List Nat)
    (hP : s.phase = WSPhase.Payload) (hlt : s.payload.length < s.payloadSize)
    (hneed : s.need = s.payloadSize - s.payload.length)
    (h : s.need ≤ avail.length) :
    readyRead m M s avail =
      (if (websocket_parse_payload s (avail.take s.need)).1 then
        readyRead m M (websocket_parse_payload s (avail.take s.need)).2
          (avail.drop s.need)
      else ((websocket_parse_payload s (avail.take s.need)).2, avail.drop s.need)) := by
  have h1 := wsRun_complete m M hm avail.length s avail (le_refl _) hP hlt hneed h
  simp only [readyRead, List.length_drop]
  exact h1

theorem wsStop_append (s : WSState) (a b : List Nat) (h : ¬wsStop s a) :
    ¬wsStop s (a ++ b) := by
  simp only [wsStop, List.length_append] at h ⊢
  push_neg at h ⊢
  exact ⟨by omega, h.2.1, fun hlt => h.2.2 (by omega)⟩

theorem wsStep_append (m M : Nat) (s : WSState) (a b : List Nat)
    (hnm : s.need ≤ m) (hla : s.need ≤ a.length) :
    wsStep m M s (a ++ b) =
      ((wsStep m M s a).1, (wsStep m M s a).2.1, (wsStep m M s a).2.2 ++ b) := by
  have hmin1 : min s.need (min m (a ++ b).length) = s.need := by
    rw [List.length_append]
    omega
  have hmin2 : min s.need (min m a.length) = s.need := by omega
  simp only [wsStep, hmin1, hmin2,
    List.take_append_of_le_length hla, List.drop_append_of_le_length hla]
  split <;> (try split) <;> (try split) <;> rfl

theorem readyRead_append (m M : Nat) (hm : 8 ≤ m) :
    ∀ (n : Nat) (s : WSState) (a b : List Nat), a.length ≤ n → WSInv s →
      (readyRead m M s (a ++ b)).1.closed = false →
      readyRead m M s (a ++ b) =
        readyRead m M (readyRead m M s a).1 ((readyRead m M s a).2 ++ b) := by
  have hm1 : 1 ≤ m := by omega
  intro n
  induction n with
  | zero =>
    intro s a b ha _ _
    have he : a = [] := List.length_eq_zero.mp (by omega)
    subst he
    rfl
  | succ n ih =>
    intro s a b ha hinv hcl
    by_cases hstopa : wsStop s a
    · rw [readyRead_stop m M s a hstopa]
    · have hstopab := wsStop_append s a b hstopa
      obtain ⟨h1a, h1n⟩ := wsStop_not s a hstopa
      by_cases hP : s.phase = WSPhase.Payload
      · obtain ⟨hlt, hneed⟩ := hinv.2.2.2 hP
        by_cases hca : a.length < s.need
        · rw [readyRead_absorb m M hm1 s a hP hlt hneed hca, List.nil_append]
          by_cases hcb : (a ++ b).length < s.need
          · rw [readyRead_absorb m M hm1 s (a ++ b) hP hlt hneed hcb,
              readyRead_absorb m M hm1 (absorbState s a) b
                (by simp [absorbState, hP])
                (by simp [absorbState, List.length_append, maskBytes_length]; omega)
                (by simp [absorbState, List.length_append, maskBytes_length]; omega)
                (by
                  have hq : (absorbState s a).need = s.need - a.length := by
                    simp [absorbState, maskBytes_length]
                  rw [hq]
                  have hcb2 := hcb
                  rw [List.length_append] at hcb2
                  omega),
              absorbState_absorbState]
          · have hcab : s.need ≤ (a ++ b).length := by omega
            have hneed2a : (absorbState s a).need = s.need - a.length := by
              simp [absorbState, maskBytes_length]
            have hblen : (absorbState s a).need ≤ b.length := by
              rw [hneed2a]
              have hcab2 := hcab
              rw [List.length_append] at hcab2
              omega
            rw [readyRead_complete m M hm1 s (a ++ b) hP hlt hneed hcab,
              readyRead_complete m M hm1 (absorbState s a) b
                (by simp [absorbState, hP])
                (by simp [absorbState, List.length_append, maskBytes_length]; omega)
                (by simp [absorbState, List.length_append, maskBytes_length]; omega)
                hblen]
            have hneed2 : (absorbState s a).need = s.need - a.length := by
              simp [absorbState, maskBytes_length]
            have hjoin : websocket_parse_payload (absorbState s a)
                (b.take (absorbState s a).need) =
                websocket_parse_payload s ((a ++ b).take s.need) := by
              rw [← websocket_parse_payload_split, hneed2]
              congr 1
              rw [List.take_append_eq_append_take,
                List.take_of_length_le (by omega : a.length ≤ s.need)]
            have hdrop : b.drop (absorbState s a).need = (a ++ b).drop s.need := by
              rw [hneed2, List.drop_append_eq_append_drop,
                List.drop_eq_nil_of_le (by omega : a.length ≤ s.need),
                List.nil_append]
            rw [hjoin, hdrop]
        · have hcaa : s.need ≤ a.length := by omega
          have hcab : s.need ≤ (a ++ b).length := by
            rw [List.length_append]
            omega
          rw [readyRead_complete m M hm1 s (a ++ b) hP hlt hneed hcab] at hcl ⊢
          rw [readyRead_complete m M hm1 s a hP hlt hneed hcaa]
          rw [List.take_append_of_le_length hcaa,
            List.drop_append_of_le_length hcaa] at hcl ⊢
          by_cases hd : (websocket_parse_payload s (a.take s.need)).1 = true
          · simp only [if_pos hd] at hcl ⊢
            exact ih _ _ b (by rw [List.length_drop]; omega)
              (websocket_parse_payload_inv s _ hP hinv) hcl
          · simp only [if_neg hd] at hcl ⊢
            have hc2 : (websocket_parse_payload s (a.take s.need)).2.closed = false := hcl
            have hc3 := websocket_parse_payload_false s (a.take s.need) (by simpa using hd)
            rw [hc3] at hc2
            exact absurd hc2 (by simp)
      · have hneed8 : s.need ≤ 8 := by
          cases hq : s.phase with
          | Headers => have := hinv.1 hq; omega
          | Size => rcases hinv.2.1 hq with h8 | h8 <;> omega
          | Mask => have := hinv.2.2.1 hq; omega
          | Payload => exact absurd hq hP
        have hla : s.need ≤ a.length := by
          by_contra hlt2
          exact hstopa (Or.inr (Or.inr ⟨by omega, hP⟩))
        have hstepA := wsStep_append m M s a b (by omega) hla
        rw [readyRead_unfold m M hm1 s (a ++ b) hstopab] at hcl ⊢
        rw [readyRead_unfold m M hm1 s a hstopa]
        rw [hstepA] at hcl ⊢
        simp only at hcl ⊢
        by_cases hbstep : (wsStep m M s a).1 = true
        · simp only [if_pos hbstep] at hcl ⊢
          refine ih _ _ b ?_ (wsStep_inv m M s a hinv) hcl
          rw [wsStep_rest, List.length_drop]
          omega
        · simp only [if_neg hbstep] at hcl ⊢
          have hc2 : (wsStep m M s a).2.1.closed = false := hcl
          have hc3 := wsStep_false m M s a (by simpa using hbstep)
          rw [hc3] at hc2
          exact absurd hc2 (by simp)

theorem feedChunks_eq (m M : Nat) (hm : 8 ≤ m) :
    ∀ (cs : List (List Nat)) (s : WSState) (left : List Nat),
      WSInv s →
      readyRead m M s left = (s, left) →
      (readyRead m M s (left ++ cs.flatten)).1.closed = false →
      feedChunks m M s left cs = readyRead m M s (left ++ cs.flatten) := by
  have hm1 : 1 ≤ m := by omega
  intro cs
  induction cs with
  | nil =>
    intro s left hinv hstuck hcl
    simp only [feedChunks, List.flatten_nil, List.append_nil]
    exact hstuck.symm
  | cons c cs ih =>
    intro s left hinv hstuck hcl
    have hclA : (readyRead m M s ((left ++ c) ++ cs.flatten)).1.closed = false := by
      rw [List.append_assoc]
      simpa [List.flatten_cons] using hcl
    have happ := readyRead_append m M hm (left ++ c).length s (left ++ c) cs.flatten
      (le_refl _) hinv hclA
    have hrcl : (readyRead m M s (left ++ c)).1.closed = false := by
      by_contra hq
      have ht : (readyRead m M s (left ++ c)).1.closed = true := by
        cases hb : (readyRead m M s (left ++ c)).1.closed
        · exact absurd hb hq
        · rfl
      have hmono : (readyRead m M (readyRead m M s (left ++ c)).1
          ((readyRead m M s (left ++ c)).2 ++ cs.flatten)).1.closed = true :=
        wsRun_closed m M ((readyRead m M s (left ++ c)).2 ++ cs.flatten).length
          (readyRead m M s (left ++ c)).1
          ((readyRead m M s (left ++ c)).2 ++ cs.flatten) ht
      rw [happ] at hclA
      rw [hclA] at hmono
      exact absurd hmono (by simp)
    have hstuck2 : readyRead m M (readyRead m M s (left ++ c)).1
        (readyRead m M s (left ++ c)).2 = ((readyRead m M s (left ++ c)).1,
          (readyRead m M s (left ++ c)).2) :=
      readyRead_stuck m M hm1 (left ++ c).length s (left ++ c) (le_refl _) hrcl
    have hinv2 : WSInv (readyRead m M s (left ++ c)).1 :=
      wsRun_inv m M (left ++ c).length s (left ++ c) hinv
    have hih := ih (readyRead m M s (left ++ c)).1 (readyRead m M s (left ++ c)).2
      hinv2 hstuck2 (by rw [← happ]; exact hclA)
    simp only [feedChunks]
    rw [hih, ← happ, List.flatten_cons, List.append_assoc]

/-- C2: processing a valid masked frame sequence split into arbitrary
successive reads produces exactly the same final state — unmasked
payload bytes, accumulated message bytes, and dispatched frame and
message events — as processing all bytes in a single read, and each
payload byte is unmasked by XOR with mask byte `(ix + i) % 4` where `ix`
counts the payload bytes already unmasked for the current frame. -/
theorem C2_chunked_reads :
    (∀ (m M : Nat) (s : WSState) (chunks : List (List Nat)),
      8 ≤ m → WSInv s →
      (readyRead m M s chunks.flatten).1.closed = false →
      feedChunks m M s [] chunks = readyRead m M s chunks.flatten) ∧
    (∀ (K P : List Nat) (ix i : Nat), i < P.length →
      (maskBytes K ix P).getD i 0 = P.getD i 0 ^^^ K.getD ((ix + i) % 4) 0) := by
  constructor
  · intro m M s chunks hm hinv hcl
    have h0 : readyRead m M s [] = (s, []) := rfl
    have h := feedChunks_eq m M hm chunks s [] hinv h0
      (by rw [List.nil_append]; exact hcl)
    rw [List.nil_append] at h
    exact h
  · intro K P
    induction P with
    | nil => intro ix i hi; simp at hi
    | cons b bs ih =>
      intro ix i hi
      cases i with
      | zero => simp [maskBytes]
      | succ j =>
        simp only [maskBytes, List.getD_cons_succ]
        rw [ih (ix + 1) j (by simpa using hi)]
        congr 2
        omega

theorem WSInv_initWS : WSInv initWS :=
  ⟨fun _ => rfl, fun h => absurd h (by decide), fun h => absurd h (by decide),
   fun h => absurd h (by decide)⟩

theorem C2_witness :
    ((8 : Nat) ≤ 4096 ∧ WSInv initWS ∧
      (readyRead 4096 65536 initWS
        ([[0x81, 0x82], [1, 2], [3, 4, 0x69], [0x6B]] : List (List Nat)).flatten).1.closed
        = false ∧
      feedChunks 4096 65536 initWS []
          ([[0x81, 0x82], [1, 2], [3, 4, 0x69], [0x6B]] : List (List Nat)) =
        readyRead 4096 65536 initWS
          ([[0x81, 0x82], [1, 2], [3, 4, 0x69], [0x6B]] : List (List Nat)).flatten) ∧
    ((2 : Nat) < ([0x68, 0x69, 0x6A] : List Nat).length ∧
      (maskBytes [1, 2, 3, 4] 5 [0x68, 0x69, 0x6A]).getD 2 0 =
        ([0x68, 0x69, 0x6A] : List Nat).getD 2 0 ^^^
          ([1, 2, 3, 4] : List Nat).getD ((5 + 2) % 4) 0) :=
  ⟨⟨by decide, WSInv_initWS, by decide,
    C2_chunked_reads.1 4096 65536 initWS [[0x81, 0x82], [1, 2], [3, 4, 0x69], [0x6B]]
      (by decide) WSInv_initWS (by decide)⟩,
   ⟨by decide,
    C2_chunked_reads.2 [1, 2, 3, 4] [0x68, 0x69, 0x6A] 5 2 (by decide)⟩⟩

end CutelystWS
